import Mathlib

/-!
# Verification of the Layer container (engine/object.js)

Shallow embedding of the scene-graph container `Layer` from
`src/public/src/engine/object.js`: child management (`add`, `remove`,
`clear`), layout placement (`HBox`, `VBox`, `BorderBox`,
`_reloadLayout`), popup handling (`showPopup`) and event dispatch with
focus promotion (`onEvent`).

Modelling conventions:
* Coordinates are rationals (`ℚ`); JS numbers never overflow in scope.
* A `Child` is a record `(id, rect, disabled)`.  The `id` field models
  JS object identity; lodash's structural matching (`_.remove` with an
  object argument) is modelled by decidable equality of the record.
* JS exceptions (the `TypeError` raised when a layout strategy
  dereferences an absent previous sibling or absent `opts.align`) are
  modelled by an `ok : Bool` flag carried beside the post-state; the
  post-state reflects the mutations performed before the throw, as in
  JS, where `this.popup = null` in `_reloadLayout` precedes the loop
  that may throw.
* A child's `onEvent` behaviour is a parameter `beh : ℕ → Msg → EResult`
  (response indexed by child id); `Layer.onEvent` returns, besides the
  JS return value and the updated layer, the ordered log of `onEvent`
  invocations it performed, each with the event value delivered.
* JS return values relevant to dispatch are `true`, `false` and
  `undefined`; `EResult` has one constructor for each (any other JS
  value behaves like `vnone` at the `result === true` test).
-/

/-- Modelled from the spec: the external axis-aligned rectangle
`(x, y, w, h)` from `shared/math` (the geometry collaborator is not in
the inspected source). -/
structure Rect where
  x : ℚ
  y : ℚ
  w : ℚ
  h : ℚ
deriving DecidableEq, Repr

/-- Modelled from the spec: the external 2D vector from `shared/math`. -/
structure Vec2 where
  x : ℚ
  y : ℚ
deriving DecidableEq, Repr

/-- Modelled from the spec: the rectangle's "containment test against a
point" used by the pointer hit test. -/
def Rect.contains (r : Rect) (p : Vec2) : Bool :=
  decide (r.x ≤ p.x ∧ p.x ≤ r.x + r.w ∧ r.y ≤ p.y ∧ p.y ≤ r.y + r.h)

/-- Modelled from the spec: the external event envelope (`Message`):
type tag, originator, positional payload, completion callback, and a
pointer-event predicate.  `isMouse` carries the value of the predicate
(it depends only on the type tag, which rewrapping preserves). -/
structure Msg where
  type : ℕ
  isMouse : Bool
  creator : ℕ
  data : Vec2
  finalCallback : ℕ
deriving DecidableEq, Repr

/-- Modelled from the spec: `event.isMouseEvent()`. -/
def Msg.isMouseEvent (m : Msg) : Bool :=
  m.isMouse

/-- Modelled from the spec: `event.data.clone().sub(rect)` — the
position-translated copy used when forwarding a pointer event into a
layer's local coordinate space; every other field is preserved. -/
def Msg.subPos (m : Msg) (r : Rect) : Msg :=
  { m with data := ⟨m.data.x - r.x, m.data.y - r.y⟩ }

/-- A scene node as seen by its owning `Layer`: `id` models JS object
identity, `rect` its position and size, `disabled` the `disabled`
flag read by dispatch, draw and update. -/
structure Child where
  id : ℕ
  rect : Rect
  disabled : Bool
deriving DecidableEq, Repr

/-- The JS values a child's `onEvent` may return, as dispatch
distinguishes them: `true`, `false`, or `undefined` (any other value
behaves like `vnone` at the `result === true` test). -/
inductive EResult where
  | vtrue
  | vfalse
  | vnone
deriving DecidableEq, Repr

/-- The options bag passed to `Layer.add`: the `fill`, `useLayout` and
`align` keys read by the code, plus a count of any other keys (only
their presence matters, through `_.isEmpty` after
`_.omit(opts, ["fill", "useLayout"])`). -/
structure Opts where
  fill : Option (ℚ × ℚ)
  useLayout : Option Bool
  align : Option (ℚ × ℚ)
  extraKeys : ℕ
deriving DecidableEq, Repr

/-- `_.omit(opts, ["fill", "useLayout"])`. -/
def Opts.omitted (o : Opts) : Opts :=
  { o with fill := none, useLayout := none }

/-- `_.isEmpty` of an options bag (an absent bag was replaced by `{}`
by `_.omit`, which is empty). -/
def omittedIsEmpty : Option Opts → Bool
  | none => true
  | some o => o.align == none && o.extraKeys == 0

/-- The three layout strategies shipped with `Layer`. -/
inductive LayoutKind where
  | hbox
  | vbox
  | borderBox
deriving DecidableEq, Repr

/-- The `Layer` container state: screen rect, ordered children stack
(z-order and focus priority), single popup slot, item spacing, optional
layout strategy, and the event-forwarding flag. -/
structure Layer where
  rect : Rect
  children : List Child
  popup : Option Child
  spacing : ℚ
  layout : Option LayoutKind
  eventForwarding : Bool
deriving DecidableEq, Repr

/-- `child.rect.xy = [px, py]`. -/
def Child.setXY (c : Child) (p : ℚ × ℚ) : Child :=
  { c with rect := { c.rect with x := p.1, y := p.2 } }

/-- `Layer.HBox`: place to the right of the previous sibling, separated
by `spacing` (`prev.rect.clone().add(new Vec2(prev.rect.w + this.spacing, 0)).xy`).
`prev.rect` is dereferenced unconditionally: with no previous sibling
the JS code throws, modelled by `none`. -/
def Layer.hboxPlace (spacing : ℚ) (_child : Child) (prev : Option Child) :
    Option (ℚ × ℚ) :=
  match prev with
  | none => none
  | some p => some (p.rect.x + (p.rect.w + spacing), p.rect.y)

/-- `Layer.VBox`: place below the previous sibling, separated by
`spacing`; throws (`none`) with no previous sibling. -/
def Layer.vboxPlace (spacing : ℚ) (_child : Child) (prev : Option Child) :
    Option (ℚ × ℚ) :=
  match prev with
  | none => none
  | some p => some (p.rect.x, p.rect.y + (p.rect.h + spacing))

/-- `Layer.BorderBox`: per axis
`Math.max(0, Math.min(parent * align − child/2, parent − child))`.
`opts.align` is dereferenced unconditionally: absent `opts` or absent
`align` throws, modelled by `none`. -/
def Layer.borderBoxPlace (rect : Rect) (child : Child) (opts : Option Opts) :
    Option (ℚ × ℚ) :=
  match opts with
  | none => none
  | some o =>
    match o.align with
    | none => none
    | some a =>
      some (max 0 (min (rect.w * a.1 - child.rect.w / 2) (rect.w - child.rect.w)),
            max 0 (min (rect.h * a.2 - child.rect.h / 2) (rect.h - child.rect.h)))

/-- `this.layout(child, prev, opts)`: dispatch to the layer's strategy,
which reads `this.spacing` / `this.rect` from the receiver. -/
def Layer.applyLayout (l : Layer) (k : LayoutKind) (child : Child)
    (prev : Option Child) (opts : Option Opts) : Option (ℚ × ℚ) :=
  match k with
  | .hbox => Layer.hboxPlace l.spacing child prev
  | .vbox => Layer.vboxPlace l.spacing child prev
  | .borderBox => Layer.borderBoxPlace l.rect child opts

/-- The loop body of `_reloadLayout`:
`item.rect.xy = !index ? [0, 0] : this.layout(item, this.children[index - 1])`.
`prev = none` marks index 0.  The previous sibling passed to the
strategy is the already-repositioned one, and the strategy receives no
`opts`.  On a throw the already-updated items keep their new positions
and the rest are untouched, as in JS. -/
def reloadGo (l : Layer) (k : LayoutKind) :
    Option Child → List Child → List Child × Bool
  | _, [] => ([], true)
  | prev, c :: rest =>
    let pos? : Option (ℚ × ℚ) :=
      match prev with
      | none => some (0, 0)
      | some p => Layer.applyLayout l k c (some p) none
    match pos? with
    | none => (c :: rest, false)
    | some pos =>
      let c' := c.setXY pos
      let r := reloadGo l k (some c') rest
      (c' :: r.1, r.2)

/-- `Layer._reloadLayout`: clear the popup, then (if a layout is set)
reassign every child's position, the first to the origin, the rest via
the strategy against the already-updated previous sibling. -/
def Layer.reloadLayout (l : Layer) : Layer × Bool :=
  let l' : Layer := { l with popup := none }
  match l'.layout with
  | none => (l', true)
  | some k =>
    let r := reloadGo l' k none l'.children
    ({ l' with children := r.1 }, r.2)

/-- `Layer.showPopup`: set the popup slot; a non-null popup is centered
on the layer's rect. -/
def Layer.showPopup (l : Layer) (popup : Option Child) : Layer :=
  match popup with
  | none => { l with popup := none }
  | some p =>
    let p' := p.setXY (l.rect.w / 2 - p.rect.w / 2, l.rect.h / 2 - p.rect.h / 2)
    { l with popup := some p' }

/-- `Layer.remove`: `_.remove(this.children, child)` drops every
element matching `child` (structural match, modelled by equality of the
record), then — since the array `_.remove` returns is always truthy —
`_reloadLayout` runs unconditionally and its result (the layer) is
returned. -/
def Layer.remove (l : Layer) (child : Child) : Layer × Bool :=
  Layer.reloadLayout { l with children := l.children.filter (fun x => x != child) }

/-- `Layer.clear`: empty the children stack, reload, return the layer
(the reload of an empty stack never throws). -/
def Layer.clear (l : Layer) : Layer :=
  (Layer.reloadLayout { l with children := [] }).1

/-- Result of `Layer.add`: the updated layer, the (possibly resized and
repositioned) child the JS method returns, and whether the call
completed without throwing. -/
structure AddResult where
  layer : Layer
  child : Child
  ok : Bool
deriving DecidableEq, Repr

/-- `Layer.add`: if a layout is set, optionally resize per `opts.fill`
(`(parent * fill) || child` minus `2 * spacing` per axis); then unless
`opts.useLayout === false`, position the child — through the strategy
with `_.last(children)` as previous sibling when the stack is non-empty
or the omitted options bag is non-empty, else at `(spacing, spacing)`.
Finally push the child.  The popup slot is never touched.  A throw in
the strategy leaves the stack unchanged. -/
def Layer.add (l : Layer) (child : Child) (opts : Option Opts) : AddResult :=
  match l.layout with
  | none => { layer := { l with children := l.children ++ [child] }, child := child, ok := true }
  | some k =>
    let child :=
      match opts with
      | some o =>
        match o.fill with
        | some f =>
          let fw := if l.rect.w * f.1 = 0 then child.rect.w else l.rect.w * f.1
          let fh := if l.rect.h * f.2 = 0 then child.rect.h else l.rect.h * f.2
          { child with rect :=
              { child.rect with w := fw - l.spacing * 2, h := fh - l.spacing * 2 } }
        | none => child
      | none => child
    let useLayoutCond : Bool :=
      match opts with
      | none => true
      | some o => o.useLayout != some false
    if useLayoutCond then
      let omitted := opts.map Opts.omitted
      if l.children.length ≠ 0 ∨ omittedIsEmpty omitted = false then
        match Layer.applyLayout l k child l.children.getLast? omitted with
        | none => { layer := l, child := child, ok := false }
        | some pos =>
          let child := child.setXY pos
          { layer := { l with children := l.children ++ [child] }, child := child, ok := true }
      else
        let child := child.setXY (l.spacing, l.spacing)
        { layer := { l with children := l.children ++ [child] }, child := child, ok := true }
    else
      { layer := { l with children := l.children ++ [child] }, child := child, ok := true }

/-- Fold a sequence of option-less `add` calls over a layer. -/
def Layer.addAll (l : Layer) : List Child → Layer
  | [] => l
  | c :: cs => Layer.addAll (l.add c none).layer cs

/-- The guard of the early `return false` in `Layer.onEvent`: a mouse
event, a rect of nonzero area, and a position outside the rect. -/
def Layer.hitFail (l : Layer) (e : Msg) : Bool :=
  e.isMouseEvent && decide (l.rect.w * l.rect.h ≠ 0) && !(l.rect.contains e.data)

/-- The event value actually delivered downward: a mouse event is
rewrapped with its position translated into the layer's local space,
any other event is passed through unchanged. -/
def Layer.effectiveEvent (l : Layer) (e : Msg) : Msg :=
  if e.isMouseEvent then e.subPos l.rect else e

/-- Result of `Layer.onEvent`: the JS return value, the ordered log of
child/popup `onEvent` invocations `(id, event delivered)`, and the
post-dispatch layer. -/
structure EventResult where
  result : EResult
  log : List (ℕ × Msg)
  layer : Layer
deriving DecidableEq, Repr

/-- The `_.each` loop over children: skip disabled children, invoke
`onEvent`, and on a `=== true` result stop with that child as the
capturer. -/
def forwardLoop (beh : ℕ → Msg → EResult) (ev : Msg) :
    List Child → List (ℕ × Msg) × Option Child
  | [] => ([], none)
  | c :: rest =>
    if c.disabled then forwardLoop beh ev rest
    else if beh c.id ev = EResult.vtrue then ([(c.id, ev)], some c)
    else
      let r := forwardLoop beh ev rest
      ((c.id, ev) :: r.1, r.2)

/-- `Layer.onEvent`: early `return false` on a failed pointer hit test;
otherwise the (possibly rewrapped) event goes to the popup alone when
one is set, else — when `eventForwarding` holds — to the children in
stack order until one returns `true`, which is then moved to the front
of the stack (`_.chain(children).tap(_.partialRight(_.remove, child)).unshift(child).value()`).
All paths other than the failed hit test fall off the end of the JS
method, returning `undefined` (`vnone`). -/
def Layer.onEvent (l : Layer) (beh : ℕ → Msg → EResult) (e : Msg) : EventResult :=
  if l.hitFail e then { result := .vfalse, log := [], layer := l }
  else
    let ev := l.effectiveEvent e
    match l.popup with
    | some p => { result := .vnone, log := [(p.id, ev)], layer := l }
    | none =>
      if l.eventForwarding then
        let r := forwardLoop beh ev l.children
        match r.2 with
        | some c =>
          { result := .vnone, log := r.1,
            layer := { l with children := c :: l.children.filter (fun x => x != c) } }
        | none => { result := .vnone, log := r.1, layer := l }
      else { result := .vnone, log := [], layer := l }

/-- Sequential placement chain: place each child in turn, the first at
`p`, each next at `(prev.x + prev.w + s, prev.y)` — the common shape of
the `HBox` recurrence under both `add` and `_reloadLayout`. -/
def placeChain (s : ℚ) (p : ℚ × ℚ) : List Child → List Child
  | [] => []
  | c :: cs => c.setXY p :: placeChain s (p.1 + (c.rect.w + s), p.2) cs

/-- Where a placement chain started at `p` ends after `cs`. -/
def chainEnd (s : ℚ) (p : ℚ × ℚ) : List Child → ℚ × ℚ
  | [] => p
  | c :: cs => chainEnd s (p.1 + (c.rect.w + s), p.2) cs

/-- The positions of a layer's children, in stack order. -/
def posList (cs : List Child) : List (ℚ × ℚ) :=
  cs.map (fun c => (c.rect.x, c.rect.y))

/-- No two entries of the children stack are the same object (object
identity is the `id` field). -/
def nodupIds (cs : List Child) : Prop :=
  (cs.map Child.id).Nodup

instance (cs : List Child) : Decidable (nodupIds cs) := by
  unfold nodupIds; infer_instance

/-! ## Basic lemmas about the operations -/

theorem reloadLayout_popup (l : Layer) : (l.reloadLayout).1.popup = none := by
  unfold Layer.reloadLayout
  cases l.layout <;> simp

theorem reloadGo_map_id (l : Layer) (k : LayoutKind) :
    ∀ (prev : Option Child) (cs : List Child),
      ((reloadGo l k prev cs).1).map Child.id = cs.map Child.id := by
  intro prev cs
  induction cs generalizing prev with
  | nil => simp [reloadGo]
  | cons c rest ih =>
    unfold reloadGo
    cases prev with
    | none => simp [Child.setXY, ih]
    | some p =>
      cases h : Layer.applyLayout l k c (some p) none with
      | none => simp [h]
      | some pos => simp [h, Child.setXY, ih]

theorem reloadLayout_map_id (l : Layer) :
    ((l.reloadLayout).1.children).map Child.id = l.children.map Child.id := by
  unfold Layer.reloadLayout
  cases l.layout with
  | none => simp
  | some k => simpa using reloadGo_map_id _ k none l.children

theorem clear_children (l : Layer) : (l.clear).children = [] := by
  unfold Layer.clear Layer.reloadLayout
  cases l.layout <;> simp [reloadGo]

theorem clear_popup (l : Layer) : (l.clear).popup = none := by
  unfold Layer.clear
  exact reloadLayout_popup _

theorem remove_popup (l : Layer) (c : Child) : (l.remove c).1.popup = none := by
  unfold Layer.remove
  exact reloadLayout_popup _

/-- `add` only ever touches the children stack of the layer. -/
theorem add_fields (l : Layer) (c : Child) (o : Option Opts) :
    (l.add c o).layer.popup = l.popup ∧ (l.add c o).layer.rect = l.rect
      ∧ (l.add c o).layer.spacing = l.spacing ∧ (l.add c o).layer.layout = l.layout
      ∧ (l.add c o).layer.eventForwarding = l.eventForwarding := by
  unfold Layer.add
  split
  · exact ⟨rfl, rfl, rfl, rfl, rfl⟩
  · dsimp only
    split
    · split
      · split <;> simp_all
      · exact ⟨rfl, rfl, rfl, rfl, rfl⟩
    · exact ⟨rfl, rfl, rfl, rfl, rfl⟩

theorem add_popup (l : Layer) (c : Child) (o : Option Opts) :
    (l.add c o).layer.popup = l.popup :=
  (add_fields l c o).1

/-- The children stack after `add`: unchanged (a throw) or one pushed
child carrying the id of the argument. -/
theorem add_children_cases (l : Layer) (c : Child) (o : Option Opts) :
    (l.add c o).layer.children = l.children ∨
      ∃ c', c'.id = c.id ∧ (l.add c o).layer.children = l.children ++ [c'] := by
  unfold Layer.add
  cases l.layout with
  | none => right; exact ⟨c, rfl, rfl⟩
  | some k =>
    dsimp only
    split
    · split
      · split
        · left; rfl
        · right; refine ⟨_, ?_, rfl⟩
          cases o with
          | none => rfl
          | some o' =>
            dsimp only
            cases o'.fill <;> rfl
      · right; refine ⟨_, ?_, rfl⟩
        cases o with
        | none => rfl
        | some o' =>
          dsimp only
          cases o'.fill <;> rfl
    · right; refine ⟨_, ?_, rfl⟩
      cases o with
      | none => rfl
      | some o' =>
        dsimp only
        cases o'.fill <;> rfl

/-! ## Dispatch lemmas -/

/-- The `_.each` loop visits enabled children in order up to and
including the first capturer. -/
theorem forwardLoop_capture (beh : ℕ → Msg → EResult) (ev : Msg) (c : Child)
    (post : List Child) (hc : c.disabled = false)
    (hcap : beh c.id ev = EResult.vtrue) :
    ∀ pre : List Child,
      (∀ d ∈ pre, d.disabled = true ∨ beh d.id ev ≠ EResult.vtrue) →
      forwardLoop beh ev (pre ++ c :: post)
        = ((pre.filter (fun d => !d.disabled)).map (fun d => (d.id, ev))
            ++ [(c.id, ev)], some c) := by
  intro pre
  induction pre with
  | nil =>
    intro _
    simp [forwardLoop, hc, hcap]
  | cons d pre ih =>
    intro hpre
    have hd := hpre d (by simp)
    have hrest : ∀ x ∈ pre, x.disabled = true ∨ beh x.id ev ≠ EResult.vtrue :=
      fun x hx => hpre x (by simp [hx])
    rcases hd with hd | hd
    · simp [forwardLoop, hd, ih hrest]
    · cases hdis : d.disabled with
      | true => simp [forwardLoop, hdis, ih hrest]
      | false =>
        have : (beh d.id ev = EResult.vtrue) = False := by
          simp [hd]
        simp [forwardLoop, hdis, this, ih hrest]

/-- A capturer reported by the loop is one of the visited children. -/
theorem forwardLoop_capturer_mem (beh : ℕ → Msg → EResult) (ev : Msg) (c : Child) :
    ∀ cs : List Child, (forwardLoop beh ev cs).2 = some c → c ∈ cs := by
  intro cs
  induction cs with
  | nil => simp [forwardLoop]
  | cons d rest ih =>
    intro h
    unfold forwardLoop at h
    by_cases hdis : d.disabled
    · simp only [hdis, if_true] at h
      exact List.mem_cons_of_mem _ (ih h)
    · simp only [hdis, if_false] at h
      by_cases hres : beh d.id ev = EResult.vtrue
      · simp only [hres, if_true] at h
        cases h
        exact List.mem_cons_self _ _
      · simp only [hres, if_false] at h
        exact List.mem_cons_of_mem _ (ih h)

/-- With no capturer the stack is left alone; with a capturer `c` it
becomes `c` followed by the stack purged of `c`. -/
theorem onEvent_layer_cases (l : Layer) (beh : ℕ → Msg → EResult) (e : Msg) :
    (l.onEvent beh e).layer = l ∨
      ∃ c ∈ l.children,
        (l.onEvent beh e).layer
          = { l with children := c :: l.children.filter (fun x => x != c) } := by
  unfold Layer.onEvent
  by_cases hhit : l.hitFail e
  · simp [hhit]
  · simp only [hhit, if_false]
    cases l.popup with
    | some p => simp
    | none =>
      by_cases hf : l.eventForwarding
      · simp only [hf, if_true]
        cases hcap : (forwardLoop beh (l.effectiveEvent e) l.children).2 with
        | none => simp [hcap]
        | some c =>
          simp only [hcap]
          right
          exact ⟨c, forwardLoop_capturer_mem _ _ _ _ hcap, rfl⟩
      · simp [hf]

/-! ## Linear layout chain lemmas -/

theorem placeChain_map_id (s : ℚ) :
    ∀ (p : ℚ × ℚ) (cs : List Child),
      (placeChain s p cs).map Child.id = cs.map Child.id := by
  intro p cs
  induction cs generalizing p with
  | nil => rfl
  | cons c rest ih => simp [placeChain, Child.setXY, ih]

theorem placeChain_length (s : ℚ) :
    ∀ (p : ℚ × ℚ) (cs : List Child), (placeChain s p cs).length = cs.length := by
  intro p cs
  induction cs generalizing p with
  | nil => rfl
  | cons c rest ih => simp [placeChain, ih]

theorem placeChain_append (s : ℚ) (ys : List Child) :
    ∀ (xs : List Child) (p : ℚ × ℚ),
      placeChain s p (xs ++ ys)
        = placeChain s p xs ++ placeChain s (chainEnd s p xs) ys := by
  intro xs
  induction xs with
  | nil => intro p; rfl
  | cons c rest ih => intro p; simp [placeChain, chainEnd, ih]

/-- The last element of a placement chain points the `HBox` recurrence
at the chain's end position. -/
theorem placeChain_getLast_next (s : ℚ) :
    ∀ (xs : List Child) (p : ℚ × ℚ) (q : Child),
      (placeChain s p xs).getLast? = some q →
      (q.rect.x + (q.rect.w + s), q.rect.y) = chainEnd s p xs
  | [], p, q => by simp [placeChain]
  | [c], p, q => by
    intro h
    simp only [placeChain, List.getLast?_singleton, Option.some.injEq] at h
    subst h
    simp [Child.setXY, chainEnd]
  | c :: c2 :: rest, p, q => by
    intro h
    have e : placeChain s p (c :: c2 :: rest)
        = c.setXY p :: c2.setXY (p.1 + (c.rect.w + s), p.2)
          :: placeChain s
              ((p.1 + (c.rect.w + s)) + (c2.rect.w + s), p.2) rest := rfl
    rw [e, List.getLast?_cons_cons] at h
    have e2 : (placeChain s (p.1 + (c.rect.w + s), p.2) (c2 :: rest)).getLast? = some q := by
      rw [show placeChain s (p.1 + (c.rect.w + s), p.2) (c2 :: rest)
          = c2.setXY (p.1 + (c.rect.w + s), p.2)
            :: placeChain s
                ((p.1 + (c.rect.w + s)) + (c2.rect.w + s), p.2) rest from rfl]
      exact h
    have := placeChain_getLast_next s (c2 :: rest) (p.1 + (c.rect.w + s), p.2) q e2
    rw [this]
    rfl

/-- Translating the start of a placement chain translates every placed
position by the same vector. -/
theorem placeChain_posList_shift (s d : ℚ) :
    ∀ (cs : List Child) (p : ℚ × ℚ),
      posList (placeChain s (p.1 + d, p.2 + d) cs)
        = (posList (placeChain s p cs)).map (fun q => (q.1 + d, q.2 + d)) := by
  intro cs
  induction cs with
  | nil => intro p; rfl
  | cons c rest ih =>
    intro p
    have e1 : posList (placeChain s (p.1 + d, p.2 + d) (c :: rest))
        = (p.1 + d, p.2 + d)
          :: posList (placeChain s ((p.1 + d) + (c.rect.w + s), p.2 + d) rest) := rfl
    have e2 : posList (placeChain s p (c :: rest))
        = (p.1, p.2) :: posList (placeChain s (p.1 + (c.rect.w + s), p.2) rest) := rfl
    rw [e1, e2]
    have e3 : (p.1 + d) + (c.rect.w + s) = (p.1 + (c.rect.w + s)) + d := by ring
    rw [e3]
    have := ih (p.1 + (c.rect.w + s), p.2)
    simp only [List.map_cons]
    rw [show ((p.1 + (c.rect.w + s)) + d, p.2 + d)
        = ((p.1 + (c.rect.w + s), p.2).1 + d, (p.1 + (c.rect.w + s), p.2).2 + d) from rfl] at this ⊢
    rw [this]

/-- `_reloadLayout`'s loop with an `HBox` layout, continuing after an
already-placed previous sibling: the placement chain, and no throw. -/
theorem reloadGo_hbox_some (l : Layer) :
    ∀ (cs : List Child) (p : Child),
      reloadGo l .hbox (some p) cs
        = (placeChain l.spacing (p.rect.x + (p.rect.w + l.spacing), p.rect.y) cs, true) := by
  intro cs
  induction cs with
  | nil => intro p; rfl
  | cons c rest ih =>
    intro p
    unfold reloadGo
    simp only [Layer.applyLayout, Layer.hboxPlace]
    rw [ih (c.setXY (p.rect.x + (p.rect.w + l.spacing), p.rect.y))]
    simp [placeChain, Child.setXY]

/-- `_reloadLayout`'s loop with an `HBox` layout: first child at the
origin, the rest to its right; never throws. -/
theorem reloadGo_hbox_none (l : Layer) (cs : List Child) :
    reloadGo l .hbox none cs = (placeChain l.spacing (0, 0) cs, true) := by
  cases cs with
  | nil => rfl
  | cons c rest =>
    unfold reloadGo
    simp only
    rw [reloadGo_hbox_some l rest (c.setXY (0, 0))]
    simp [placeChain, Child.setXY]

/-- The reload loop never throws for the linear strategies. -/
theorem reloadGo_linear_ok (l : Layer) (k : LayoutKind)
    (hk : k = .hbox ∨ k = .vbox) :
    ∀ (prev : Option Child) (cs : List Child), (reloadGo l k prev cs).2 = true := by
  intro prev cs
  induction cs generalizing prev with
  | nil => rfl
  | cons c rest ih =>
    unfold reloadGo
    cases prev with
    | none => simpa using ih _
    | some p =>
      rcases hk with hk | hk <;> subst hk <;>
        simpa [Layer.applyLayout, Layer.hboxPlace, Layer.vboxPlace] using ih _

/-- An option-less `add` to an `HBox` layer with a non-empty stack
places the child after the last one. -/
theorem add_hbox_getLast (l : Layer) (c p : Child)
    (hl : l.layout = some .hbox) (hg : l.children.getLast? = some p) :
    (l.add c none).layer
      = { l with children :=
            l.children ++ [c.setXY (p.rect.x + (p.rect.w + l.spacing), p.rect.y)] }
    ∧ (l.add c none).ok = true := by
  have hne : l.children.length ≠ 0 := by
    intro h0
    rw [List.length_eq_zero] at h0
    rw [h0] at hg
    simp at hg
  unfold Layer.add
  rw [hl]
  simp only [omittedIsEmpty, Option.map_none']
  rw [if_pos (Or.inl hne)]
  simp [Layer.applyLayout, Layer.hboxPlace, hg]

/-- An option-less `add` to an empty `HBox` layer places the child at
`(spacing, spacing)` without consulting the strategy. -/
theorem add_hbox_empty (l : Layer) (c : Child)
    (hl : l.layout = some .hbox) (hc : l.children = []) :
    (l.add c none).layer
      = { l with children := [c.setXY (l.spacing, l.spacing)] }
    ∧ (l.add c none).ok = true := by
  unfold Layer.add
  rw [hl]
  simp [omittedIsEmpty, hc]

/-- `addAll` on an `HBox` layer with a non-empty stack extends the
stack by the placement chain continuing from the last child. -/
theorem addAll_hbox_ne :
    ∀ (cs : List Child) (l : Layer) (p : Child),
      l.layout = some .hbox → l.children.getLast? = some p →
      (Layer.addAll l cs).children
        = l.children
          ++ placeChain l.spacing (p.rect.x + (p.rect.w + l.spacing), p.rect.y) cs := by
  intro cs
  induction cs with
  | nil => intro l p _ _; simp [Layer.addAll, placeChain]
  | cons c rest ih =>
    intro l p hl hg
    have hstep := add_hbox_getLast l c p hl hg
    unfold Layer.addAll
    set c' := c.setXY (p.rect.x + (p.rect.w + l.spacing), p.rect.y) with hc'
    have h2 : (l.add c none).layer.layout = some LayoutKind.hbox := by
      rw [hstep.1]; exact hl
    have h3 : (l.add c none).layer.children.getLast? = some c' := by
      rw [hstep.1]; simp
    have := ih (l.add c none).layer c' h2 h3
    rw [this, hstep.1]
    simp only
    rw [List.append_assoc]
    congr 1

/-- `addAll` on an empty `HBox` layer builds the placement chain
started at `(spacing, spacing)`. -/
theorem addAll_hbox_nil (l : Layer) (cs : List Child)
    (hl : l.layout = some .hbox) (hc : l.children = []) :
    (Layer.addAll l cs).children = placeChain l.spacing (l.spacing, l.spacing) cs := by
  cases cs with
  | nil => simpa [Layer.addAll, placeChain] using hc
  | cons c rest =>
    have hstep := add_hbox_empty l c hl hc
    unfold Layer.addAll
    have h2 : (l.add c none).layer.layout = some LayoutKind.hbox := by
      rw [hstep.1]; exact hl
    have h3 : (l.add c none).layer.children.getLast? = some (c.setXY (l.spacing, l.spacing)) := by
      rw [hstep.1]
      simp
    have := addAll_hbox_ne rest (l.add c none).layer (c.setXY (l.spacing, l.spacing)) h2 h3
    rw [this, hstep.1]
    simp only [Child.setXY]
    rw [show placeChain l.spacing (l.spacing, l.spacing) (c :: rest)
        = c.setXY (l.spacing, l.spacing)
          :: placeChain l.spacing (l.spacing + (c.rect.w + l.spacing), l.spacing) rest
        from rfl]
    simp [Child.setXY]

theorem addAll_fields :
    ∀ (cs : List Child) (l : Layer),
      (Layer.addAll l cs).rect = l.rect ∧ (Layer.addAll l cs).spacing = l.spacing
        ∧ (Layer.addAll l cs).layout = l.layout ∧ (Layer.addAll l cs).popup = l.popup := by
  intro cs
  induction cs with
  | nil => intro l; exact ⟨rfl, rfl, rfl, rfl⟩
  | cons c rest ih =>
    intro l
    have h := add_fields l c none
    have h2 := ih (l.add c none).layer
    unfold Layer.addAll
    exact ⟨h2.1.trans h.2.1, h2.2.1.trans h.2.2.1, h2.2.2.1.trans h.2.2.2.1,
      h2.2.2.2.trans h.1⟩

/-! ## The claims -/

/-- C1, counterexample to the claim as stated: a layer with an active
popup and a nonzero-area rect, and a pointer event at a position
outside the rect.  The claim says the event is delivered to the popup's
`onEvent` for every event type and position; here the popup's `onEvent`
is never invoked (the dispatch log is empty) — the hit test of step 1
precedes the popup branch. -/
theorem claim_c1_cex :
    (Layer.popup ⟨⟨0, 0, 50, 50⟩, [⟨1, ⟨0, 0, 10, 10⟩, false⟩],
        some ⟨2, ⟨0, 0, 10, 10⟩, false⟩, 5, none, true⟩
      = some ⟨2, ⟨0, 0, 10, 10⟩, false⟩)
    ∧ ((⟨⟨0, 0, 50, 50⟩, [⟨1, ⟨0, 0, 10, 10⟩, false⟩],
        some ⟨2, ⟨0, 0, 10, 10⟩, false⟩, 5, none, true⟩ : Layer).onEvent
          (fun _ _ => EResult.vnone) ⟨1, true, 0, ⟨60, 60⟩, 0⟩).log = [] := by
  refine ⟨rfl, ?_⟩
  norm_num [Layer.onEvent, Layer.hitFail, Msg.isMouseEvent, Rect.contains]

/-- C1 (amended): for every layer with a non-null popup, no child's
`onEvent` is ever invoked, regardless of event type, position and
`eventForwarding` — the dispatch log is empty when the pointer hit test
fails and contains exactly the popup invocation (with the rewrapped
event) otherwise — and the children stack is untouched. -/
theorem claim_c1_amended (l : Layer) (p : Child) (beh : ℕ → Msg → EResult)
    (e : Msg) (h : l.popup = some p) :
    (l.onEvent beh e).log
        = (if l.hitFail e then [] else [(p.id, l.effectiveEvent e)])
    ∧ (l.onEvent beh e).layer = l
    ∧ (l.onEvent beh e).result
        = (if l.hitFail e then EResult.vfalse else EResult.vnone) := by
  unfold Layer.onEvent
  by_cases hh : l.hitFail e
  · simp [hh]
  · simp [hh, h]

theorem claim_c1_amended_witness :
    (Layer.popup ⟨⟨0, 0, 50, 50⟩, [⟨1, ⟨0, 0, 10, 10⟩, false⟩],
        some ⟨2, ⟨0, 0, 10, 10⟩, false⟩, 5, none, true⟩
      = some ⟨2, ⟨0, 0, 10, 10⟩, false⟩)
    ∧ (((⟨⟨0, 0, 50, 50⟩, [⟨1, ⟨0, 0, 10, 10⟩, false⟩],
          some ⟨2, ⟨0, 0, 10, 10⟩, false⟩, 5, none, true⟩ : Layer).onEvent
            (fun _ _ => EResult.vnone) ⟨0, false, 0, ⟨7, 7⟩, 0⟩).log
        = (if (⟨⟨0, 0, 50, 50⟩, [⟨1, ⟨0, 0, 10, 10⟩, false⟩],
              some ⟨2, ⟨0, 0, 10, 10⟩, false⟩, 5, none, true⟩ : Layer).hitFail
              ⟨0, false, 0, ⟨7, 7⟩, 0⟩ then []
           else [((⟨2, ⟨0, 0, 10, 10⟩, false⟩ : Child).id,
              (⟨⟨0, 0, 50, 50⟩, [⟨1, ⟨0, 0, 10, 10⟩, false⟩],
                some ⟨2, ⟨0, 0, 10, 10⟩, false⟩, 5, none, true⟩ : Layer).effectiveEvent
                ⟨0, false, 0, ⟨7, 7⟩, 0⟩)])) := by
  exact ⟨rfl, (claim_c1_amended _ ⟨2, ⟨0, 0, 10, 10⟩, false⟩
    (fun _ _ => EResult.vnone) ⟨0, false, 0, ⟨7, 7⟩, 0⟩ rfl).1⟩

/-- C3, counterexample to the claim as stated: `add` does not clear the
popup — it never calls `_reloadLayout` — so after `add` on a layer with
an active popup the popup slot is still non-null. -/
theorem claim_c3_cex :
    (Layer.popup ⟨⟨0, 0, 100, 100⟩, [⟨1, ⟨0, 0, 10, 10⟩, false⟩],
        some ⟨3, ⟨0, 0, 10, 10⟩, false⟩, 5, none, true⟩
      = some ⟨3, ⟨0, 0, 10, 10⟩, false⟩)
    ∧ ((⟨⟨0, 0, 100, 100⟩, [⟨1, ⟨0, 0, 10, 10⟩, false⟩],
        some ⟨3, ⟨0, 0, 10, 10⟩, false⟩, 5, none, true⟩ : Layer).add
          ⟨2, ⟨0, 0, 10, 10⟩, false⟩ none).layer.popup ≠ none := by
  decide

/-- C3 (amended): of the structural mutations, `remove` and `clear`
leave the popup slot null on return; `add` leaves the popup slot
exactly as it was (it does not discard the active popup). -/
theorem claim_c3_amended (l : Layer) (p c c' : Child) (o : Option Opts)
    (h : l.popup = some p) :
    (l.remove c).1.popup = none ∧ (l.clear).popup = none
      ∧ (l.add c' o).layer.popup = some p := by
  refine ⟨remove_popup l c, clear_popup l, ?_⟩
  rw [add_popup, h]

theorem claim_c3_amended_witness :
    (Layer.popup ⟨⟨0, 0, 100, 100⟩, [⟨1, ⟨0, 0, 10, 10⟩, false⟩],
        some ⟨3, ⟨0, 0, 10, 10⟩, false⟩, 5, none, true⟩
      = some ⟨3, ⟨0, 0, 10, 10⟩, false⟩)
    ∧ (((⟨⟨0, 0, 100, 100⟩, [⟨1, ⟨0, 0, 10, 10⟩, false⟩],
          some ⟨3, ⟨0, 0, 10, 10⟩, false⟩, 5, none, true⟩ : Layer).remove
          ⟨1, ⟨0, 0, 10, 10⟩, false⟩).1.popup = none
       ∧ (⟨⟨0, 0, 100, 100⟩, [⟨1, ⟨0, 0, 10, 10⟩, false⟩],
          some ⟨3, ⟨0, 0, 10, 10⟩, false⟩, 5, none, true⟩ : Layer).clear.popup = none
       ∧ ((⟨⟨0, 0, 100, 100⟩, [⟨1, ⟨0, 0, 10, 10⟩, false⟩],
          some ⟨3, ⟨0, 0, 10, 10⟩, false⟩, 5, none, true⟩ : Layer).add
            ⟨2, ⟨0, 0, 10, 10⟩, false⟩ none).layer.popup
          = some ⟨3, ⟨0, 0, 10, 10⟩, false⟩) :=
  ⟨rfl, claim_c3_amended _ ⟨3, ⟨0, 0, 10, 10⟩, false⟩ ⟨1, ⟨0, 0, 10, 10⟩, false⟩
    ⟨2, ⟨0, 0, 10, 10⟩, false⟩ none rfl⟩

/-- C4: the code never signals capture upward.  At an input where an
enabled child captures the event (it is invoked — the log shows it —
returns `true` and is promoted), `Layer.onEvent` still returns
`undefined` (`vnone`), not `true`: both dispatching branches of the JS
method fall off the end without a `return`, so an enclosing Layer can
never observe the consumption. -/
theorem claim_c4 :
    (fun (_ : ℕ) (_ : Msg) => EResult.vtrue) 1 (⟨0, false, 0, ⟨0, 0⟩, 0⟩ : Msg)
        = EResult.vtrue
    ∧ ((⟨⟨0, 0, 0, 0⟩, [⟨1, ⟨0, 0, 10, 10⟩, false⟩], none, 5, none, true⟩ : Layer).onEvent
          (fun _ _ => EResult.vtrue) ⟨0, false, 0, ⟨0, 0⟩, 0⟩).log
        = [(1, ⟨0, false, 0, ⟨0, 0⟩, 0⟩)]
    ∧ ((⟨⟨0, 0, 0, 0⟩, [⟨1, ⟨0, 0, 10, 10⟩, false⟩], none, 5, none, true⟩ : Layer).onEvent
          (fun _ _ => EResult.vtrue) ⟨0, false, 0, ⟨0, 0⟩, 0⟩).result = EResult.vnone
    ∧ ((⟨⟨0, 0, 0, 0⟩, [⟨1, ⟨0, 0, 10, 10⟩, false⟩], none, 5, none, true⟩ : Layer).onEvent
          (fun _ _ => EResult.vtrue) ⟨0, false, 0, ⟨0, 0⟩, 0⟩).result ≠ EResult.vtrue := by
  decide

/-- C5: a pointer event whose position lies outside a nonzero-area rect
is rejected: `onEvent` returns `false` ("not captured"), performs no
`onEvent` invocation at all (neither popup nor child), and leaves the
layer unchanged. -/
theorem claim_c5 (l : Layer) (beh : ℕ → Msg → EResult) (e : Msg)
    (h1 : e.isMouseEvent = true) (h2 : l.rect.w * l.rect.h ≠ 0)
    (h3 : l.rect.contains e.data = false) :
    l.onEvent beh e = { result := EResult.vfalse, log := [], layer := l } := by
  have hh : l.hitFail e = true := by
    simp [Layer.hitFail, h1, h2, h3]
  unfold Layer.onEvent
  rw [hh]
  simp

theorem claim_c5_witness :
    ((⟨1, true, 0, ⟨60, 60⟩, 0⟩ : Msg).isMouseEvent = true
      ∧ (⟨0, 0, 50, 50⟩ : Rect).w * (⟨0, 0, 50, 50⟩ : Rect).h ≠ 0
      ∧ (⟨0, 0, 50, 50⟩ : Rect).contains (⟨1, true, 0, ⟨60, 60⟩, 0⟩ : Msg).data = false)
    ∧ (⟨⟨0, 0, 50, 50⟩, [⟨1, ⟨0, 0, 10, 10⟩, false⟩], some ⟨2, ⟨0, 0, 10, 10⟩, false⟩,
        5, none, true⟩ : Layer).onEvent (fun _ _ => EResult.vtrue) ⟨1, true, 0, ⟨60, 60⟩, 0⟩
      = { result := EResult.vfalse, log := [],
          layer := ⟨⟨0, 0, 50, 50⟩, [⟨1, ⟨0, 0, 10, 10⟩, false⟩],
            some ⟨2, ⟨0, 0, 10, 10⟩, false⟩, 5, none, true⟩ } :=
  ⟨⟨by decide, by norm_num, by norm_num [Rect.contains]⟩,
    claim_c5 _ (fun _ _ => EResult.vtrue) ⟨1, true, 0, ⟨60, 60⟩, 0⟩
      (by decide) (by norm_num) (by norm_num [Rect.contains])⟩

/-- C2: with forwarding on, no popup, and an event passing the hit
test: children are visited in stack order with the (rewrapped) event,
disabled children are skipped, and when the child `c` (preceded by
children that are disabled or do not return `true`) returns `true`, it
sits at index 0 of the stack immediately afterwards and no child after
it is invoked — the invocation log is exactly the enabled children
before `c`, in order, then `c`. -/
theorem claim_c2 (l : Layer) (beh : ℕ → Msg → EResult) (e : Msg)
    (pre post : List Child) (c : Child)
    (hpopup : l.popup = none) (hfwd : l.eventForwarding = true)
    (hhit : l.hitFail e = false)
    (hchildren : l.children = pre ++ c :: post)
    (hpre : ∀ d ∈ pre, d.disabled = true ∨ beh d.id (l.effectiveEvent e) ≠ EResult.vtrue)
    (hc : c.disabled = false) (hcap : beh c.id (l.effectiveEvent e) = EResult.vtrue) :
    (l.onEvent beh e).layer.children
        = c :: (pre ++ c :: post).filter (fun x => x != c)
    ∧ (l.onEvent beh e).log
        = (pre.filter (fun d => !d.disabled)).map (fun d => (d.id, l.effectiveEvent e))
          ++ [(c.id, l.effectiveEvent e)] := by
  have hloop := forwardLoop_capture beh (l.effectiveEvent e) c post hc hcap pre hpre
  unfold Layer.onEvent
  rw [hhit]
  simp only [Bool.false_eq_true, if_false, hpopup, hfwd, if_true]
  rw [hchildren, hloop]
  exact ⟨rfl, rfl⟩

theorem claim_c2_witness :
    ((Layer.popup ⟨⟨0, 0, 0, 0⟩,
        [⟨1, ⟨0, 0, 10, 10⟩, false⟩, ⟨2, ⟨0, 0, 10, 10⟩, false⟩, ⟨3, ⟨0, 0, 10, 10⟩, false⟩],
        none, 5, none, true⟩ = none)
      ∧ (Layer.hitFail ⟨⟨0, 0, 0, 0⟩,
          [⟨1, ⟨0, 0, 10, 10⟩, false⟩, ⟨2, ⟨0, 0, 10, 10⟩, false⟩, ⟨3, ⟨0, 0, 10, 10⟩, false⟩],
          none, 5, none, true⟩ ⟨0, false, 0, ⟨0, 0⟩, 0⟩ = false))
    ∧ ((⟨⟨0, 0, 0, 0⟩,
        [⟨1, ⟨0, 0, 10, 10⟩, false⟩, ⟨2, ⟨0, 0, 10, 10⟩, false⟩, ⟨3, ⟨0, 0, 10, 10⟩, false⟩],
        none, 5, none, true⟩ : Layer).onEvent
          (fun i _ => if i = 2 then EResult.vtrue else EResult.vnone)
          ⟨0, false, 0, ⟨0, 0⟩, 0⟩).layer.children
        = (⟨2, ⟨0, 0, 10, 10⟩, false⟩ : Child)
          :: (([(⟨1, ⟨0, 0, 10, 10⟩, false⟩ : Child)]
              ++ (⟨2, ⟨0, 0, 10, 10⟩, false⟩ : Child)
                :: [(⟨3, ⟨0, 0, 10, 10⟩, false⟩ : Child)]).filter
              (fun x => x != (⟨2, ⟨0, 0, 10, 10⟩, false⟩ : Child))) := by
  refine ⟨⟨rfl, by decide⟩, ?_⟩
  exact (claim_c2 ⟨⟨0, 0, 0, 0⟩,
    [⟨1, ⟨0, 0, 10, 10⟩, false⟩, ⟨2, ⟨0, 0, 10, 10⟩, false⟩, ⟨3, ⟨0, 0, 10, 10⟩, false⟩],
    none, 5, none, true⟩ (fun i _ => if i = 2 then EResult.vtrue else EResult.vnone)
    ⟨0, false, 0, ⟨0, 0⟩, 0⟩ [⟨1, ⟨0, 0, 10, 10⟩, false⟩] [⟨3, ⟨0, 0, 10, 10⟩, false⟩]
    ⟨2, ⟨0, 0, 10, 10⟩, false⟩ rfl rfl (by decide) rfl (by decide) rfl (by decide)).1

/-- C9, counterexample to the claim as stated: with a child larger than
the parent the clamp order `max 0 (min v (parent − child))` yields
position 0 and the child is not fully inside the parent's bounds (the
claim asserts in-bounds placement for every child and alignment in
[0,1]). -/
theorem claim_c9_cex :
    Layer.borderBoxPlace ⟨0, 0, 100, 100⟩ ⟨1, ⟨0, 0, 200, 200⟩, false⟩
        (some ⟨none, none, some (1/2, 1/2), 0⟩) = some (0, 0)
    ∧ ¬((0 : ℚ) + (⟨1, ⟨0, 0, 200, 200⟩, false⟩ : Child).rect.w ≤ (⟨0, 0, 100, 100⟩ : Rect).w) := by
  constructor
  · norm_num [Layer.borderBoxPlace]
  · norm_num

/-- C9 (amended): the bounded-alignment strategy computes per axis
`max 0 (min (parentSize * align − childSize/2) (parentSize − childSize))`,
and — provided the child is no larger than the parent on that axis —
the resulting placement lies fully inside the parent's bounds for every
alignment value, inside or outside [0,1]; the spec's scenario (parent
100×100, align (1,1), child 20×20) yields (80,80). -/
theorem claim_c9_amended :
    (∀ (R : Rect) (c : Child) (ax ay : ℚ) (o : Opts),
      o.align = some (ax, ay) → c.rect.w ≤ R.w → c.rect.h ≤ R.h →
      Layer.borderBoxPlace R c (some o)
          = some (max 0 (min (R.w * ax - c.rect.w / 2) (R.w - c.rect.w)),
                  max 0 (min (R.h * ay - c.rect.h / 2) (R.h - c.rect.h)))
        ∧ 0 ≤ max 0 (min (R.w * ax - c.rect.w / 2) (R.w - c.rect.w))
        ∧ max 0 (min (R.w * ax - c.rect.w / 2) (R.w - c.rect.w)) + c.rect.w ≤ R.w
        ∧ 0 ≤ max 0 (min (R.h * ay - c.rect.h / 2) (R.h - c.rect.h))
        ∧ max 0 (min (R.h * ay - c.rect.h / 2) (R.h - c.rect.h)) + c.rect.h ≤ R.h)
    ∧ Layer.borderBoxPlace ⟨0, 0, 100, 100⟩ ⟨1, ⟨0, 0, 20, 20⟩, false⟩
        (some ⟨none, none, some (1, 1), 0⟩) = some (80, 80) := by
  constructor
  · intro R c ax ay o ha hw hh
    have hx : max 0 (min (R.w * ax - c.rect.w / 2) (R.w - c.rect.w)) ≤ R.w - c.rect.w :=
      max_le (by linarith) (min_le_right _ _)
    have hy : max 0 (min (R.h * ay - c.rect.h / 2) (R.h - c.rect.h)) ≤ R.h - c.rect.h :=
      max_le (by linarith) (min_le_right _ _)
    refine ⟨?_, le_max_left _ _, by linarith, le_max_left _ _, by linarith⟩
    unfold Layer.borderBoxPlace
    dsimp only
    rw [ha]
  · norm_num [Layer.borderBoxPlace]

theorem claim_c9_amended_witness :
    ((Opts.align ⟨none, none, some (1, 1), 0⟩ = some ((1 : ℚ), (1 : ℚ)))
      ∧ (⟨1, ⟨0, 0, 20, 20⟩, false⟩ : Child).rect.w ≤ (⟨0, 0, 100, 100⟩ : Rect).w
      ∧ (⟨1, ⟨0, 0, 20, 20⟩, false⟩ : Child).rect.h ≤ (⟨0, 0, 100, 100⟩ : Rect).h)
    ∧ Layer.borderBoxPlace ⟨0, 0, 100, 100⟩ ⟨1, ⟨0, 0, 20, 20⟩, false⟩
        (some ⟨none, none, some (1, 1), 0⟩)
        = some (max 0 (min ((⟨0, 0, 100, 100⟩ : Rect).w * 1
              - (⟨1, ⟨0, 0, 20, 20⟩, false⟩ : Child).rect.w / 2)
            ((⟨0, 0, 100, 100⟩ : Rect).w - (⟨1, ⟨0, 0, 20, 20⟩, false⟩ : Child).rect.w)),
          max 0 (min ((⟨0, 0, 100, 100⟩ : Rect).h * 1
              - (⟨1, ⟨0, 0, 20, 20⟩, false⟩ : Child).rect.h / 2)
            ((⟨0, 0, 100, 100⟩ : Rect).h - (⟨1, ⟨0, 0, 20, 20⟩, false⟩ : Child).rect.h))) :=
  ⟨⟨rfl, by norm_num, by norm_num⟩,
    (claim_c9_amended.1 ⟨0, 0, 100, 100⟩ ⟨1, ⟨0, 0, 20, 20⟩, false⟩ 1 1
      ⟨none, none, some (1, 1), 0⟩ rfl (by norm_num) (by norm_num)).1⟩

/-- C10, counterexample to the claim as stated: with
`opts = { useLayout: false }` plus one extra key, the omitted options
bag is non-empty, yet `add` on an empty linear-layout Layer does not
invoke the strategy at all (the `useLayout === false` guard skips
positioning) and completes without error. -/
theorem claim_c10_cex :
    omittedIsEmpty (some (Opts.omitted ⟨none, some false, none, 1⟩)) = false
    ∧ ((⟨⟨0, 0, 200, 200⟩, [], none, 5, some .hbox, true⟩ : Layer).add
        ⟨1, ⟨0, 0, 10, 10⟩, false⟩ (some ⟨none, some false, none, 1⟩)).ok = true := by
  decide

/-- C10 (amended): `HBox` and `VBox` dereference the previous sibling's
rect unconditionally, so they throw when no previous sibling exists;
consequently `add` on an empty Layer with a linear layout and a
non-empty omitted options bag — provided `opts.useLayout` is not
`false`, which would skip positioning entirely — invokes the strategy
with no previous sibling and reaches the undefined-dereference error
branch, leaving the stack unchanged. -/
theorem claim_c10_amended (l : Layer) (c : Child) (o : Opts)
    (hc : l.children = [])
    (hk : l.layout = some .hbox ∨ l.layout = some .vbox)
    (hne : omittedIsEmpty (some o.omitted) = false)
    (hu : o.useLayout ≠ some false) :
    (∀ (s : ℚ) (ch : Child),
      Layer.hboxPlace s ch none = none ∧ Layer.vboxPlace s ch none = none)
    ∧ (l.add c (some o)).ok = false ∧ (l.add c (some o)).layer = l := by
  refine ⟨fun s ch => ⟨rfl, rfl⟩, ?_⟩
  have hcond : (l.children.length ≠ 0 ∨ omittedIsEmpty (Option.map Opts.omitted (some o)) = false) := by
    right
    simpa using hne
  have hbne : (o.useLayout != some false) = true := by
    simpa using hu
  have hlast : l.children.getLast? = none := by
    rw [hc]; rfl
  unfold Layer.add
  rcases hk with hk | hk <;> rw [hk] <;> dsimp only <;>
    rw [hbne, if_pos hcond, hlast] <;>
    simp [Layer.applyLayout, Layer.hboxPlace, Layer.vboxPlace]

theorem claim_c10_amended_witness :
    ((Layer.children ⟨⟨0, 0, 200, 200⟩, [], none, 5, some .hbox, true⟩ = [])
      ∧ (Layer.layout ⟨⟨0, 0, 200, 200⟩, [], none, 5, some .hbox, true⟩ = some .hbox
          ∨ Layer.layout ⟨⟨0, 0, 200, 200⟩, [], none, 5, some .hbox, true⟩ = some .vbox)
      ∧ omittedIsEmpty (some (Opts.omitted ⟨none, none, none, 1⟩)) = false
      ∧ Opts.useLayout ⟨none, none, none, 1⟩ ≠ some false)
    ∧ ((⟨⟨0, 0, 200, 200⟩, [], none, 5, some .hbox, true⟩ : Layer).add
          ⟨1, ⟨0, 0, 10, 10⟩, false⟩ (some ⟨none, none, none, 1⟩)).ok = false := by
  refine ⟨⟨rfl, Or.inl rfl, by decide, by decide⟩, ?_⟩
  exact (claim_c10_amended ⟨⟨0, 0, 200, 200⟩, [], none, 5, some .hbox, true⟩
    ⟨1, ⟨0, 0, 10, 10⟩, false⟩ ⟨none, none, none, 1⟩ rfl (Or.inl rfl)
    (by decide) (by decide)).2.1

/-- C8, counterexample to the claim as stated: `add` pushes
unconditionally (`this.children.push(child)`), so adding a child that
is already in the sequence produces a duplicate entry. -/
theorem claim_c8_cex :
    nodupIds (Layer.children ⟨⟨0, 0, 100, 100⟩, [⟨1, ⟨0, 0, 10, 10⟩, false⟩],
        none, 5, none, true⟩)
    ∧ ¬ nodupIds ((⟨⟨0, 0, 100, 100⟩, [⟨1, ⟨0, 0, 10, 10⟩, false⟩],
        none, 5, none, true⟩ : Layer).add ⟨1, ⟨0, 0, 10, 10⟩, false⟩ none).layer.children := by
  decide

/-- C8 (amended): starting from a duplicate-free children sequence,
`remove`, `clear` and the focus promotion inside `onEvent` preserve
freedom from duplicates unconditionally; `add` preserves it only when
the added child is not already an entry of the sequence. -/
theorem claim_c8_amended (l : Layer) (c c' : Child) (o : Option Opts)
    (beh : ℕ → Msg → EResult) (e : Msg) (h : nodupIds l.children) :
    nodupIds (l.remove c).1.children
    ∧ nodupIds (l.clear).children
    ∧ nodupIds (l.onEvent beh e).layer.children
    ∧ (c'.id ∉ l.children.map Child.id → nodupIds (l.add c' o).layer.children) := by
  have hfilter : ∀ p : Child → Bool, nodupIds (l.children.filter p) := by
    intro p
    exact List.Nodup.sublist ((List.filter_sublist _).map _) h
  refine ⟨?_, ?_, ?_, ?_⟩
  · unfold Layer.remove nodupIds
    rw [reloadLayout_map_id]
    exact hfilter _
  · rw [clear_children]
    simp [nodupIds]
  · rcases onEvent_layer_cases l beh e with hcase | ⟨c0, hc0mem, hcase⟩
    · rw [hcase]; exact h
    · rw [hcase]
      unfold nodupIds
      simp only [List.map_cons]
      rw [List.nodup_cons]
      refine ⟨?_, hfilter _⟩
      intro hmem
      rcases List.mem_map.1 hmem with ⟨x, hxmem, hxid⟩
      have hx2 := List.mem_filter.1 hxmem
      have hxne : x ≠ c0 := by simpa using hx2.2
      exact hxne (List.inj_on_of_nodup_map h hx2.1 hc0mem hxid)
  · intro hfresh
    rcases add_children_cases l c' o with hcase | ⟨cc, hccid, hcase⟩
    · unfold nodupIds
      rw [hcase]
      exact h
    · unfold nodupIds
      rw [hcase, List.map_append, List.nodup_append]
      refine ⟨h, by simp, ?_⟩
      intro a ha hb
      simp only [List.map_cons, List.map_nil, List.mem_singleton] at hb
      rw [hb, hccid] at ha
      exact hfresh ha

theorem claim_c8_amended_witness :
    nodupIds (Layer.children ⟨⟨0, 0, 100, 100⟩,
        [⟨1, ⟨0, 0, 10, 10⟩, false⟩, ⟨2, ⟨0, 0, 10, 10⟩, false⟩], none, 5, none, true⟩)
    ∧ (nodupIds ((⟨⟨0, 0, 100, 100⟩,
          [⟨1, ⟨0, 0, 10, 10⟩, false⟩, ⟨2, ⟨0, 0, 10, 10⟩, false⟩],
          none, 5, none, true⟩ : Layer).remove ⟨1, ⟨0, 0, 10, 10⟩, false⟩).1.children
      ∧ nodupIds (⟨⟨0, 0, 100, 100⟩,
          [⟨1, ⟨0, 0, 10, 10⟩, false⟩, ⟨2, ⟨0, 0, 10, 10⟩, false⟩],
          none, 5, none, true⟩ : Layer).clear.children
      ∧ nodupIds ((⟨⟨0, 0, 100, 100⟩,
          [⟨1, ⟨0, 0, 10, 10⟩, false⟩, ⟨2, ⟨0, 0, 10, 10⟩, false⟩],
          none, 5, none, true⟩ : Layer).onEvent (fun _ _ => EResult.vnone)
            ⟨0, false, 0, ⟨0, 0⟩, 0⟩).layer.children
      ∧ ((⟨3, ⟨0, 0, 10, 10⟩, false⟩ : Child).id ∉
            (Layer.children ⟨⟨0, 0, 100, 100⟩,
              [⟨1, ⟨0, 0, 10, 10⟩, false⟩, ⟨2, ⟨0, 0, 10, 10⟩, false⟩],
              none, 5, none, true⟩).map Child.id →
          nodupIds ((⟨⟨0, 0, 100, 100⟩,
            [⟨1, ⟨0, 0, 10, 10⟩, false⟩, ⟨2, ⟨0, 0, 10, 10⟩, false⟩],
            none, 5, none, true⟩ : Layer).add ⟨3, ⟨0, 0, 10, 10⟩, false⟩ none).layer.children)) :=
  ⟨by decide,
    claim_c8_amended ⟨⟨0, 0, 100, 100⟩,
      [⟨1, ⟨0, 0, 10, 10⟩, false⟩, ⟨2, ⟨0, 0, 10, 10⟩, false⟩], none, 5, none, true⟩
      ⟨1, ⟨0, 0, 10, 10⟩, false⟩ ⟨3, ⟨0, 0, 10, 10⟩, false⟩ none
      (fun _ _ => EResult.vnone) ⟨0, false, 0, ⟨0, 0⟩, 0⟩ (by decide)⟩

/-- C6, counterexample to the claim as stated: `remove` of an absent
child "does not fail" is violated for a bounded-alignment layout with
two or more children — the recompute calls the strategy with only two
arguments (`this.layout(item, this.children[index - 1])`), so
`BorderBox` dereferences an absent `opts.align` and throws. -/
theorem claim_c6_cex :
    ((⟨3, ⟨0, 0, 10, 10⟩, false⟩ : Child) ∉
        Layer.children ⟨⟨0, 0, 100, 100⟩,
          [⟨1, ⟨0, 0, 10, 10⟩, false⟩, ⟨2, ⟨20, 0, 10, 10⟩, false⟩],
          none, 5, some .borderBox, true⟩)
    ∧ ((⟨⟨0, 0, 100, 100⟩,
          [⟨1, ⟨0, 0, 10, 10⟩, false⟩, ⟨2, ⟨20, 0, 10, 10⟩, false⟩],
          none, 5, some .borderBox, true⟩ : Layer).remove
            ⟨3, ⟨0, 0, 10, 10⟩, false⟩).2 = false := by
  decide

/-- C6 (amended): `remove` of an absent child removes zero elements —
it is exactly `_reloadLayout` on the unchanged sequence — so the
membership (the ids, in order) is preserved, the popup is set to null,
and the call completes without failure provided the recompute itself
cannot throw: no layout, or a linear (`HBox`/`VBox`) layout; with a
bounded-alignment layout and at least two children the recompute
throws. -/
theorem claim_c6_amended (l : Layer) (c : Child) (h : c ∉ l.children) :
    l.remove c = l.reloadLayout
    ∧ (l.remove c).1.popup = none
    ∧ ((l.remove c).1.children).map Child.id = l.children.map Child.id
    ∧ ((l.layout = none ∨ l.layout = some .hbox ∨ l.layout = some .vbox) →
        (l.remove c).2 = true) := by
  have hfe : l.children.filter (fun x => x != c) = l.children := by
    apply List.filter_eq_self.mpr
    intro a ha
    simp only [bne_iff_ne, ne_eq]
    intro hac
    exact h (hac ▸ ha)
  have he : l.remove c = l.reloadLayout := by
    unfold Layer.remove
    rw [hfe]
  refine ⟨he, remove_popup _ _, ?_, ?_⟩
  · rw [he]
    exact reloadLayout_map_id l
  · intro hk
    rw [he]
    unfold Layer.reloadLayout
    dsimp only
    rcases hk with hk | hk | hk <;> rw [hk] <;> dsimp only
    · exact reloadGo_linear_ok _ _ (Or.inl rfl) none _
    · exact reloadGo_linear_ok _ _ (Or.inr rfl) none _

theorem claim_c6_amended_witness :
    ((⟨2, ⟨0, 0, 10, 10⟩, false⟩ : Child) ∉
        Layer.children ⟨⟨0, 0, 100, 100⟩, [⟨1, ⟨5, 5, 10, 10⟩, false⟩],
          none, 5, some .hbox, true⟩)
    ∧ ((⟨⟨0, 0, 100, 100⟩, [⟨1, ⟨5, 5, 10, 10⟩, false⟩], none, 5, some .hbox,
          true⟩ : Layer).remove ⟨2, ⟨0, 0, 10, 10⟩, false⟩
        = (⟨⟨0, 0, 100, 100⟩, [⟨1, ⟨5, 5, 10, 10⟩, false⟩], none, 5, some .hbox,
          true⟩ : Layer).reloadLayout
      ∧ ((⟨⟨0, 0, 100, 100⟩, [⟨1, ⟨5, 5, 10, 10⟩, false⟩], none, 5, some .hbox,
          true⟩ : Layer).remove ⟨2, ⟨0, 0, 10, 10⟩, false⟩).1.popup = none
      ∧ (((⟨⟨0, 0, 100, 100⟩, [⟨1, ⟨5, 5, 10, 10⟩, false⟩], none, 5, some .hbox,
          true⟩ : Layer).remove ⟨2, ⟨0, 0, 10, 10⟩, false⟩).1.children).map Child.id
          = (Layer.children ⟨⟨0, 0, 100, 100⟩, [⟨1, ⟨5, 5, 10, 10⟩, false⟩],
              none, 5, some .hbox, true⟩).map Child.id
      ∧ ((Layer.layout ⟨⟨0, 0, 100, 100⟩, [⟨1, ⟨5, 5, 10, 10⟩, false⟩],
              none, 5, some .hbox, true⟩ = none
            ∨ Layer.layout ⟨⟨0, 0, 100, 100⟩, [⟨1, ⟨5, 5, 10, 10⟩, false⟩],
              none, 5, some .hbox, true⟩ = some .hbox
            ∨ Layer.layout ⟨⟨0, 0, 100, 100⟩, [⟨1, ⟨5, 5, 10, 10⟩, false⟩],
              none, 5, some .hbox, true⟩ = some .vbox) →
          ((⟨⟨0, 0, 100, 100⟩, [⟨1, ⟨5, 5, 10, 10⟩, false⟩], none, 5, some .hbox,
            true⟩ : Layer).remove ⟨2, ⟨0, 0, 10, 10⟩, false⟩).2 = true)) :=
  ⟨by decide,
    claim_c6_amended ⟨⟨0, 0, 100, 100⟩, [⟨1, ⟨5, 5, 10, 10⟩, false⟩],
      none, 5, some .hbox, true⟩ ⟨2, ⟨0, 0, 10, 10⟩, false⟩ (by decide)⟩

/-- C7, counterexample to the claim as stated: spacing 5, `HBox`;
`add(A)`, `add(B)` (10×10 children) puts A at (5,5), B at (20,5);
`remove(A)` then `add(C)` leaves [B at (0,0), C at (15,0)] — but a
fresh build of [B, C] gives [(5,5), (20,5)]: `_reloadLayout` resets the
first child to the origin, not to `(spacing, spacing)`, so the
positions do not match a fresh sequential placement. -/
theorem claim_c7_cex :
    posList ((((Layer.addAll ⟨⟨0, 0, 200, 200⟩, [], none, 5, some .hbox, true⟩
          [⟨1, ⟨0, 0, 10, 10⟩, false⟩, ⟨2, ⟨0, 0, 10, 10⟩, false⟩]).remove
          ⟨1, ⟨5, 5, 10, 10⟩, false⟩).1.add ⟨3, ⟨0, 0, 10, 10⟩, false⟩ none).layer.children)
      = [(0, 0), (15, 0)]
    ∧ posList (Layer.addAll ⟨⟨0, 0, 200, 200⟩, [], none, 5, some .hbox, true⟩
          [⟨2, ⟨0, 0, 10, 10⟩, false⟩, ⟨3, ⟨0, 0, 10, 10⟩, false⟩]).children
      = [(5, 5), (20, 5)]
    ∧ ([((0 : ℚ), (0 : ℚ)), (15, 0)] : List (ℚ × ℚ)) ≠ [(5, 5), (20, 5)] := by
  refine ⟨?_, ?_, by decide⟩
  · norm_num [Layer.addAll, Layer.add, Layer.applyLayout, Layer.hboxPlace, omittedIsEmpty,
      Child.setXY, Layer.remove, Layer.reloadLayout, reloadGo, posList, List.filter]
  · norm_num [Layer.addAll, Layer.add, Layer.applyLayout, Layer.hboxPlace, omittedIsEmpty,
      Child.setXY, posList]

/-- C7 (amended): with an `HBox` layout and spacing 5, after a sequence
of option-less adds, one `remove`, and one more option-less add, and
provided at least one child remains after the removal, every
remaining/new child's position equals its position in a freshly built
layer over the same final sequence *translated by (−5, −5)*: the
recompute starts the chain at the origin (0,0) where a fresh build
starts it at (spacing, spacing). -/
theorem claim_c7_amended (R : Rect) (p0 : Option Child) (b : Bool)
    (cs : List Child) (c d : Child)
    (hrem : (Layer.addAll ⟨R, [], p0, 5, some .hbox, b⟩ cs).children.filter
        (fun x => x != c) ≠ []) :
    posList ((((Layer.addAll ⟨R, [], p0, 5, some .hbox, b⟩ cs).remove c).1.add
          d none).layer.children)
      = (posList (Layer.addAll ⟨R, [], none, 5, some .hbox, b⟩
            ((Layer.addAll ⟨R, [], p0, 5, some .hbox, b⟩ cs).children.filter
              (fun x => x != c) ++ [d])).children).map
          (fun q => (q.1 - 5, q.2 - 5)) := by
  set base : Layer := ⟨R, [], p0, 5, some .hbox, b⟩ with hbase
  set L : Layer := Layer.addAll base cs with hLdef
  set remaining : List Child := L.children.filter (fun x => x != c) with hremdef
  have hfields := addAll_fields cs base
  have hlay : L.layout = some .hbox := hfields.2.2.1
  have hsp : L.spacing = 5 := hfields.2.1
  have hL2 : (L.remove c).1
      = { rect := L.rect, children := placeChain 5 (0, 0) remaining, popup := none,
          spacing := L.spacing, layout := L.layout, eventForwarding := L.eventForwarding } := by
    unfold Layer.remove Layer.reloadLayout
    dsimp only
    rw [← hremdef, hlay]
    dsimp only
    rw [reloadGo_hbox_none]
    dsimp only
    rw [hsp]
  have hne2 : placeChain 5 (0, 0) remaining ≠ [] := by
    intro hempty
    have := placeChain_length 5 (0, 0) remaining
    rw [hempty] at this
    exact hrem (List.length_eq_zero.mp this.symm)
  obtain ⟨q, hq⟩ : ∃ q, (placeChain 5 (0, 0) remaining).getLast? = some q := by
    cases hg : (placeChain 5 (0, 0) remaining).getLast? with
    | none => exact absurd (List.getLast?_eq_none_iff.mp hg) hne2
    | some q => exact ⟨q, rfl⟩
  have hadd := add_hbox_getLast ((L.remove c).1) d q
    (by rw [hL2]; exact hlay) (by rw [hL2]; exact hq)
  have hnext : (q.rect.x + (q.rect.w + (5 : ℚ)), q.rect.y) = chainEnd 5 (0, 0) remaining :=
    placeChain_getLast_next 5 remaining (0, 0) q hq
  have hL3 : (((L.remove c).1).add d none).layer.children
      = placeChain 5 (0, 0) (remaining ++ [d]) := by
    rw [hadd.1, hL2]
    dsimp only
    rw [hsp, placeChain_append]
    congr 1
    rw [hnext]
    rfl
  have hF : (Layer.addAll ⟨R, [], none, 5, some .hbox, b⟩ (remaining ++ [d])).children
      = placeChain 5 (5, 5) (remaining ++ [d]) :=
    addAll_hbox_nil _ _ rfl rfl
  have hshift5 : posList (placeChain 5 ((5 : ℚ), (5 : ℚ)) (remaining ++ [d]))
      = (posList (placeChain 5 (0, 0) (remaining ++ [d]))).map
          (fun q => (q.1 + 5, q.2 + 5)) := by
    have h0 := placeChain_posList_shift 5 5 (remaining ++ [d]) (0, 0)
    norm_num at h0
    exact h0
  rw [hL3, hF, hshift5, List.map_map]
  have hcomp : ∀ a : ℚ × ℚ,
      ((fun q : ℚ × ℚ => (q.1 - 5, q.2 - 5)) ∘ fun q : ℚ × ℚ => (q.1 + 5, q.2 + 5)) a
        = id a := by
    intro a
    simp [Function.comp]
  conv_rhs => rw [List.map_congr_left (fun a _ => hcomp a)]
  rw [List.map_id]

theorem claim_c7_amended_witness :
    ((Layer.addAll ⟨⟨0, 0, 200, 200⟩, [], none, 5, some .hbox, true⟩
        [⟨1, ⟨0, 0, 10, 10⟩, false⟩]).children.filter
        (fun x => x != (⟨9, ⟨0, 0, 1, 1⟩, false⟩ : Child)) ≠ [])
    ∧ posList ((((Layer.addAll ⟨⟨0, 0, 200, 200⟩, [], none, 5, some .hbox, true⟩
            [⟨1, ⟨0, 0, 10, 10⟩, false⟩]).remove ⟨9, ⟨0, 0, 1, 1⟩, false⟩).1.add
            ⟨2, ⟨0, 0, 10, 10⟩, false⟩ none).layer.children)
        = (posList (Layer.addAll ⟨⟨0, 0, 200, 200⟩, [], none, 5, some .hbox, true⟩
              ((Layer.addAll ⟨⟨0, 0, 200, 200⟩, [], none, 5, some .hbox, true⟩
                [⟨1, ⟨0, 0, 10, 10⟩, false⟩]).children.filter
                (fun x => x != (⟨9, ⟨0, 0, 1, 1⟩, false⟩ : Child))
               ++ [⟨2, ⟨0, 0, 10, 10⟩, false⟩])).children).map
            (fun q => (q.1 - 5, q.2 - 5)) :=
  ⟨by decide,
    claim_c7_amended ⟨0, 0, 200, 200⟩ none true [⟨1, ⟨0, 0, 10, 10⟩, false⟩]
      ⟨9, ⟨0, 0, 1, 1⟩, false⟩ ⟨2, ⟨0, 0, 10, 10⟩, false⟩ (by decide)⟩
